import Mathlib

/-!
# instaprovider: posts and stories retrieval (`instagram.go`)

A shallow embedding of the request handlers of `instagram.go` and proofs of
the properties stated for them.

Modelling conventions.

* A Go `string` is a Lean `String`; the functions below look at it character by
  character.  The only bytes the code distinguishes are ASCII (`+`, `-`, `_`, the
  digits), and every byte of a multi-byte UTF-8 sequence is `≥ 0x80`, so a
  non-ASCII character is treated exactly like each of its bytes.
* `int64` values are `Int`; `uint64` arithmetic inside `strconv.ParseUint` is
  `Nat` arithmetic reduced modulo `2^64`, conversions to `int64` wrap explicitly.
* A Go run-time panic is a value of type `Fault`; a function that can panic
  returns `Except Fault _`.
* The calls into the `instago` client library are fields of `IGApiManager`
  (their `error` results are discarded by the code, so only the value is kept).
  `getPosts` and `getStories` describe the retrieval when these calls return.
* A call into the client library may also panic.  The request handlers, whose
  deferred `recover` is there for that, run over a `PanickingApiManager`, whose
  calls return a value or a `Panic`; `getPostsCall` and `getStoriesCall` are the
  retrieval over such a client, and agree with `getPosts` and `getStories` when
  no call panics.
* A Go slice is the list of its elements: a `nil` and an empty slice are the same
  list.
-/

namespace Instaprovider

/-! ## `strconv` -/

/-- The two error kinds of Go's `strconv` package. -/
inductive NumError where
  | ErrSyntax
  | ErrRange
deriving DecidableEq, Repr

/-- The number of values of a `uint64`, `1 << 64`. -/
def uint64Size : Nat := 18446744073709551616

/-- The largest `uint64`, `1<<64 - 1`. -/
def maxUint64 : Nat := 18446744073709551615

/-- The byte-level `lower(c)` of `strconv`: `c | ('x' - 'X')`. -/
def lower (c : Nat) : Nat := c ||| 32

/-- The digit switch of `strconv.ParseUint`: a decimal digit, a letter digit
(value `≥ 10`), or no digit at all (`default`). -/
def digitVal (c : Char) : Option Nat :=
  if 48 ≤ c.toNat ∧ c.toNat ≤ 57 then some (c.toNat - 48)
  else if 97 ≤ lower c.toNat ∧ lower c.toNat ≤ 122 then some (lower c.toNat - 97 + 10)
  else none

/-- The loop of `strconv.ParseUint(s, 10, 64)` over the bytes of `s`, with the
accumulator `n`.  `cutoff = maxUint64/10 + 1`, `maxVal = 1<<64 - 1`. -/
def ParseUintLoop : List Char → Nat → Except NumError Nat
  | [], n => .ok n
  | c :: cs, n =>
    match digitVal c with
    | none => .error .ErrSyntax
    | some d =>
      if d ≥ 10 then .error .ErrSyntax
      else if n ≥ maxUint64 / 10 + 1 then .error .ErrRange
      else
        let n10 := (n * 10) % uint64Size
        let n1 := (n10 + d) % uint64Size
        if n1 < n10 ∨ n1 > maxUint64 then .error .ErrRange
        else ParseUintLoop cs n1

/-- Go's `strconv.ParseUint(s, 10, 64)`. -/
def ParseUint (s : List Char) : Except NumError Nat :=
  match s with
  | [] => .error .ErrSyntax
  | _ => ParseUintLoop s 0

/-- The conversion `int64(un)` of a `uint64`. -/
def toInt64 (un : Nat) : Int :=
  if un < 9223372036854775808 then (un : Int) else (un : Int) - 18446744073709551616

/-- Negation of an `int64`, wrapping at `-2^63`. -/
def negInt64 (n : Int) : Int :=
  if n = -9223372036854775808 then n else -n

/-- Go's `strconv.ParseInt(s, 10, 64)`. -/
def ParseInt (s : String) : Except NumError Int :=
  match s.data with
  | [] => .error .ErrSyntax
  | c :: cs =>
    let neg : Bool := c = '-'
    let rest : List Char := if c = '+' then cs else if c = '-' then cs else c :: cs
    match ParseUint rest with
    | .error .ErrSyntax => .error .ErrSyntax
    | r =>
      let un : Nat := match r with
        | .ok u => u
        | .error _ => maxUint64
      let cutoff : Nat := 9223372036854775808
      if neg = false ∧ un ≥ cutoff then .error .ErrRange
      else if neg = true ∧ un > cutoff then .error .ErrRange
      else
        let n := toInt64 un
        .ok (if neg then negInt64 n else n)

/-- The character of a decimal digit. -/
def digitChar : Nat → Char
  | 0 => '0'
  | 1 => '1'
  | 2 => '2'
  | 3 => '3'
  | 4 => '4'
  | 5 => '5'
  | 6 => '6'
  | 7 => '7'
  | 8 => '8'
  | _ => '9'

/-- The digit loop of `strconv.FormatInt(i, 10)`, one digit a round: the decimal
digits of `u`, most significant first, in front of `acc`.  A `uint64` has at most
20 digits, which bounds the loop. -/
def formatBitsLoop : Nat → Nat → List Char → List Char
  | 0, u, acc => digitChar u :: acc
  | fuel + 1, u, acc =>
    if u ≥ 10 then formatBitsLoop fuel (u / 10) (digitChar (u % 10) :: acc)
    else digitChar u :: acc

/-- Go's `strconv.FormatInt(i, 10)` for an `int64` `i`. -/
def FormatInt (i : Int) : String :=
  let ds := formatBitsLoop 20 i.natAbs []
  String.mk (if i < 0 then '-' :: ds else ds)

/-- Go's `strings.IndexByte`, scanning from position `i`: the index of the first
occurrence of `c`, or `-1`.  Up to the first ASCII `c` positions counted in
characters and in bytes delimit the same text. -/
def IndexByteFrom (c : Char) : List Char → Nat → Int
  | [], _ => -1
  | x :: xs, i => if x = c then (i : Int) else IndexByteFrom c xs (i + 1)

/-- Go's `strings.IndexByte(s, c)`. -/
def IndexByte (s : String) (c : Char) : Int := IndexByteFrom c s.data 0

/-! ## Run-time panics -/

/-- The run-time panics the code of `instagram.go` can raise itself. -/
inductive Fault where
  /-- An index expression `a[index]` on a slice of length `length ≤ index`. -/
  | indexOutOfRange (index length : Nat)
  /-- A slice expression `s[:high]` with `high` outside `0 .. len(s)`. -/
  | sliceBoundsOutOfRange (high : Int)
deriving DecidableEq, Repr

/-- The text of a run-time panic, as `%+v` prints it. -/
def Fault.detail : Fault → String
  | .indexOutOfRange index length =>
    "runtime error: index out of range [" ++ FormatInt index ++ "] with length "
      ++ FormatInt length
  | .sliceBoundsOutOfRange high =>
    "runtime error: slice bounds out of range [:" ++ FormatInt high ++ "]"

/-- The slice expression `s[:high]` on a string. -/
def sliceTo (s : String) (high : Int) : Except Fault String :=
  if 0 ≤ high ∧ high ≤ (s.data.length : Int) then .ok (String.mk (s.data.take high.toNat))
  else .error (.sliceBoundsOutOfRange high)

/-- The index expression `a[0]` on a slice. -/
def index0 (a : List String) : Except Fault String :=
  match a with
  | x :: _ => .ok x
  | [] => .error (.indexOutOfRange 0 0)

/-! ## The `instago` client library, as far as `instagram.go` uses it -/

/-- An `instago.IGMedia`: the fields read by the code, and the results of the
methods `GetPostUrl()`, `GetPostCode()` and `GetMediaUrls()` called on it.
`EdgeMediaToCaption` holds the `Node.Text` of each caption edge. -/
structure IGMedia where
  Id : String
  IsVideo : Bool
  EdgeMediaPreviewLikeCount : Int
  EdgeMediaToCaption : List String
  GetPostUrl : String
  GetPostCode : String
  GetMediaUrls : List String
deriving DecidableEq, Repr

/-- A story item of `instago`: its `Id` and the results of `GetPostUrl()` and
`GetMediaUrls()`. -/
structure IGItem where
  Id : String
  GetPostUrl : String
  GetMediaUrls : List String
deriving DecidableEq, Repr

/-- The profile `GetUserInfo` returns; only `IsPrivate` is read. -/
structure UserInfo where
  IsPrivate : Bool
deriving DecidableEq, Repr

/-- The story collection `GetUserStory` returns. -/
structure UserTray where
  GetItems : List IGItem
deriving DecidableEq, Repr

/-- An `instago.IGApiManager`: the value each call returns (its `error` is
discarded at every call site). -/
structure IGApiManager where
  GetUserInfo : String → UserInfo
  GetAllPostMedia : String → List IGMedia
  GetPostInfo : String → IGMedia
  GetUserStory : String → UserTray

/-! ## `instagram.go` -/

/-- `InstaPost` (l. 14-21). -/
structure InstaPost where
  Description : String
  PhotoURLs : List String
  VideoURLs : List String
  Likes : Int
  ID : String
  PostUrl : String
deriving DecidableEq, Repr

/-- `InstaStory` (l. 29-34). -/
structure InstaStory where
  StoryURL : String
  OriginalID : String
  ID : String
  MediaURL : String
deriving DecidableEq, Repr

/-- `InstaUser` (l. 23-27). -/
structure InstaUser where
  UserName : String
  Posts : List InstaPost
  Stories : List InstaStory
deriving DecidableEq, Repr

/-- `InstagramHandler` (l. 36-39). -/
structure InstagramHandler where
  PrivateAPIManager : IGApiManager
  PublicAPIManager : IGApiManager

/-- `getInt` (l. 154-161): the parsed value, or `defaultValue` when
`strconv.ParseInt` reports an error (the warning printed is not modelled). -/
def getInt (strValue : String) (defaultValue : Int) : Int :=
  match ParseInt strValue with
  | .error _ => defaultValue
  | .ok intValue => intValue

/-- `getStoryIdWithoutUserId` (l. 149-152): the slice up to the first `_`,
parsed; the slice expression panics when there is no `_`. -/
def getStoryIdWithoutUserId (storyId : String) : Except Fault Int :=
  match sliceTo storyId (IndexByte storyId '_') with
  | .error r => .error r
  | .ok storyIdString => .ok (getInt storyIdString 0)

/-- The body of the loop of `getPosts` after the cutoff test (l. 85-100): the
post built from one media item. -/
def postInfoOf (handler : InstagramHandler) (media : IGMedia) : InstaPost :=
  let postInfo : InstaPost :=
    { PostUrl := media.GetPostUrl
      Likes := media.EdgeMediaPreviewLikeCount
      ID := media.Id
      Description := ""
      PhotoURLs := []
      VideoURLs := [] }
  let postInfo : InstaPost :=
    match media.EdgeMediaToCaption with
    | text :: _ => { postInfo with Description := text }
    | [] => postInfo
  if media.IsVideo then
    let info := handler.PrivateAPIManager.GetPostInfo media.GetPostCode
    { postInfo with VideoURLs := info.GetMediaUrls }
  else
    let info := handler.PublicAPIManager.GetPostInfo media.GetPostCode
    { postInfo with PhotoURLs := info.GetMediaUrls }

/-- The loop of `getPosts` (l. 80-102) over the remaining media, `posts` being
`resp.Posts` so far; `break` returns what has been accumulated. -/
def getPostsLoop (handler : InstagramHandler) (id : Int) :
    List IGMedia → List InstaPost → List InstaPost
  | [], posts => posts
  | media :: medias, posts =>
    let mediaId := getInt media.Id 0
    if mediaId ≤ id then posts
    else getPostsLoop handler id medias (posts ++ [postInfoOf handler media])

/-- The media list `getPosts` iterates over (l. 72-78): that of the private
client when the profile is private, that of the public client otherwise. -/
def postMedias (handler : InstagramHandler) (name : String) : List IGMedia :=
  let userInfo := handler.PublicAPIManager.GetUserInfo name
  if userInfo.IsPrivate then handler.PrivateAPIManager.GetAllPostMedia name
  else handler.PublicAPIManager.GetAllPostMedia name

/-- `getPosts` (l. 71-104). -/
def getPosts (handler : InstagramHandler) (name : String) (id : Int) : InstaUser :=
  let medias := postMedias handler name
  { UserName := name
    Posts := getPostsLoop handler id medias []
    Stories := [] }

/-- The story built from one admitted item (l. 138-143). -/
def storyInfoOf (story : IGItem) (storyId : Int) (media0 : String) : InstaStory :=
  { StoryURL := story.GetPostUrl
    ID := FormatInt storyId
    OriginalID := story.Id
    MediaURL := media0 }

/-- The loop of `getStories` (l. 132-145) over the remaining items, `stories`
being `resp.Stories` so far; `continue` goes on with the next item. -/
def getStoriesLoop (lastId : Int) :
    List IGItem → List InstaStory → Except Fault (List InstaStory)
  | [], stories => .ok stories
  | story :: items, stories =>
    match getStoryIdWithoutUserId story.Id with
    | .error r => .error r
    | .ok storyId =>
      if storyId ≤ lastId then getStoriesLoop lastId items stories
      else
        let media := story.GetMediaUrls
        match index0 media with
        | .error r => .error r
        | .ok media0 =>
          getStoriesLoop lastId items (stories ++ [storyInfoOf story storyId media0])

/-- `getStories` (l. 128-147).  `GetUserId` is the package-level
`instago.GetUserId`. -/
def getStories (GetUserId : String → String) (handler : InstagramHandler)
    (name : String) (lastId : Int) : Except Fault InstaUser :=
  let userId := GetUserId name
  let stories := handler.PrivateAPIManager.GetUserStory userId
  match getStoriesLoop lastId stories.GetItems [] with
  | .error r => .error r
  | .ok res => .ok { UserName := name, Posts := [], Stories := res }

/-! ## Panics of the client library -/

/-- The value `recover()` returns for a panicking body: a run-time panic of the
code of `instagram.go` itself, or a panic raised inside a call of the client
library, given by the text `%+v` prints for it. -/
inductive Panic where
  | runtime (r : Fault)
  | library (detail : String)
deriving DecidableEq, Repr

/-- The text `%+v` prints for a recovered panic. -/
def Panic.detail : Panic → String
  | .runtime r => r.detail
  | .library detail => detail

/-- An `instago.IGApiManager` whose calls may panic: each call returns its value
(the `error` is discarded at every call site) or panics. -/
structure PanickingApiManager where
  GetUserInfo : String → Except Panic UserInfo
  GetAllPostMedia : String → Except Panic (List IGMedia)
  GetPostInfo : String → Except Panic IGMedia
  GetUserStory : String → Except Panic UserTray

/-- `InstagramHandler` (l. 36-39) over clients whose calls may panic. -/
structure PanickingHandler where
  PrivateAPIManager : PanickingApiManager
  PublicAPIManager : PanickingApiManager

/-- A client none of whose calls panics. -/
def IGApiManager.toPanicking (m : IGApiManager) : PanickingApiManager :=
  { GetUserInfo := fun name => .ok (m.GetUserInfo name)
    GetAllPostMedia := fun name => .ok (m.GetAllPostMedia name)
    GetPostInfo := fun code => .ok (m.GetPostInfo code)
    GetUserStory := fun userId => .ok (m.GetUserStory userId) }

/-- A handler none of whose client calls panics. -/
def InstagramHandler.toPanicking (handler : InstagramHandler) : PanickingHandler :=
  { PrivateAPIManager := handler.PrivateAPIManager.toPanicking
    PublicAPIManager := handler.PublicAPIManager.toPanicking }

/-- The body of the loop of `getPosts` after the cutoff test (l. 85-100) over
clients that may panic: the post built from one media item, or the panic of the
post-info lookup. -/
def postInfoCall (handler : PanickingHandler) (media : IGMedia) : Except Panic InstaPost :=
  let postInfo : InstaPost :=
    { PostUrl := media.GetPostUrl
      Likes := media.EdgeMediaPreviewLikeCount
      ID := media.Id
      Description := ""
      PhotoURLs := []
      VideoURLs := [] }
  let postInfo : InstaPost :=
    match media.EdgeMediaToCaption with
    | text :: _ => { postInfo with Description := text }
    | [] => postInfo
  if media.IsVideo then
    match handler.PrivateAPIManager.GetPostInfo media.GetPostCode with
    | .error r => .error r
    | .ok info => .ok { postInfo with VideoURLs := info.GetMediaUrls }
  else
    match handler.PublicAPIManager.GetPostInfo media.GetPostCode with
    | .error r => .error r
    | .ok info => .ok { postInfo with PhotoURLs := info.GetMediaUrls }

/-- The loop of `getPosts` (l. 80-102) over clients that may panic; a panic of a
post-info lookup ends the loop and the function. -/
def getPostsLoopCall (handler : PanickingHandler) (id : Int) :
    List IGMedia → List InstaPost → Except Panic (List InstaPost)
  | [], posts => .ok posts
  | media :: medias, posts =>
    let mediaId := getInt media.Id 0
    if mediaId ≤ id then .ok posts
    else
      match postInfoCall handler media with
      | .error r => .error r
      | .ok postInfo => getPostsLoopCall handler id medias (posts ++ [postInfo])

/-- The call `handler.getPosts(name, id)` (l. 71-104) over clients that may
panic: the response, or the panic of the first client call that panics. -/
def getPostsCall (handler : PanickingHandler) (name : String) (id : Int) :
    Except Panic InstaUser :=
  match handler.PublicAPIManager.GetUserInfo name with
  | .error r => .error r
  | .ok userInfo =>
    match (if userInfo.IsPrivate then handler.PrivateAPIManager.GetAllPostMedia name
      else handler.PublicAPIManager.GetAllPostMedia name) with
    | .error r => .error r
    | .ok medias =>
      match getPostsLoopCall handler id medias [] with
      | .error r => .error r
      | .ok posts => .ok { UserName := name, Posts := posts, Stories := [] }

/-- The call `handler.getStories(name, lastId)` (l. 128-147) over a client that
may panic: the response, the panic of a client call, or the run-time panic of the
loop.  `GetUserId` is the package-level `instago.GetUserId`. -/
def getStoriesCall (GetUserId : String → Except Panic String) (handler : PanickingHandler)
    (name : String) (lastId : Int) : Except Panic InstaUser :=
  match GetUserId name with
  | .error r => .error r
  | .ok userId =>
    match handler.PrivateAPIManager.GetUserStory userId with
    | .error r => .error r
    | .ok stories =>
      match getStoriesLoop lastId stories.GetItems [] with
      | .error r => .error (.runtime r)
      | .ok res => .ok { UserName := name, Posts := [], Stories := res }

/-! ## The request handlers -/

/-- A call made on the `http.ResponseWriter`. -/
inductive WriterCall where
  | WriteHeader (statusCode : Nat)
  | Write (body : String)
deriving DecidableEq, Repr

/-- The `http.ResponseWriter` of a request: the calls made on it so far, in
order. -/
abbrev ResponseWriter := List WriterCall

/-- A function body with a deferred `recover`: when the body panics with `r`,
the deferred function runs `onPanic r` on the state the body left and the
function returns normally; otherwise `recover()` is `nil` and nothing is done. -/
def deferRecover {σ : Type} (onPanic : Panic → σ → σ)
    (body : σ → Except Panic Unit × σ) (s : σ) : Except Panic Unit × σ :=
  match body s with
  | (.error r, s1) => (.ok (), onPanic r s1)
  | (.ok (), s1) => (.ok (), s1)

/-- The body of the 500 response for the panic `r` (l. 55, 111):
`fmt.Sprintf("{\"Error\": \"%+v\"}", r)`. -/
def errorBody (r : Panic) : String := "\x7b\"Error\": \"" ++ r.detail ++ "\"\x7d"

/-- The deferred function of both handlers (l. 52-59, 108-115) on a panic `r`:
status 500 and the error body (the console output is not modelled). -/
def writeFault (r : Panic) (w : ResponseWriter) : ResponseWriter :=
  w ++ [.WriteHeader 500, .Write (errorBody r)]

/-- `handlePostsRequest` (l. 50-69).  `vars` is `mux.Vars(r)` (a missing key
reads as the empty string).  `marshal` gives the bytes `json.Marshal` returns for
a response of `getPosts`; it is a parameter of this handler alone, since the Go
value of such a response (`Posts` never `nil`, `Stories` always `nil`) is not that
of a response of `getStories` with the same elements. -/
def handlePostsRequest (handler : PanickingHandler) (marshal : InstaUser → String)
    (vars : String → String) (w : ResponseWriter) : Except Panic Unit × ResponseWriter :=
  deferRecover writeFault
    (fun w =>
      let name := vars "username"
      let id := getInt (vars "last") 0
      match getPostsCall handler name id with
      | .error r => (.error r, w)
      | .ok resp =>
        let res := marshal resp
        (.ok (), w ++ [.WriteHeader 200, .Write res]))
    w

/-- `handleStoriesRequest` (l. 106-126).  `marshal` gives the bytes `json.Marshal`
returns for a response of `getStories` (`Posts` always `nil`, `Stories` never
`nil`). -/
def handleStoriesRequest (GetUserId : String → Except Panic String)
    (handler : PanickingHandler) (marshal : InstaUser → String) (vars : String → String)
    (w : ResponseWriter) : Except Panic Unit × ResponseWriter :=
  deferRecover writeFault
    (fun w =>
      let name := vars "username"
      let last := vars "last"
      let lastId := getInt last 0
      match getStoriesCall GetUserId handler name lastId with
      | .error r => (.error r, w)
      | .ok resp =>
        let res := marshal resp
        (.ok (), w ++ [.WriteHeader 200, .Write res]))
    w

/-! ## Notions used in the statements

Decimal literals are defined independently of the parser. -/

/-- A decimal digit, `0` to `9`. -/
def isDecimalDigit (c : Char) : Bool := decide (48 ≤ c.toNat ∧ c.toNat ≤ 57)

/-- The number `n` extended by the decimal digits `ds`. -/
def decimalFrom (n : Nat) (ds : List Char) : Nat :=
  ds.foldl (fun n c => 10 * n + (c.toNat - 48)) n

/-- The natural number a string of decimal digits denotes. -/
def decimalValue (ds : List Char) : Nat := decimalFrom 0 ds

/-- The sign of a literal: `true` when it starts with `-`. -/
def literalNeg (s : List Char) : Bool :=
  match s with
  | c :: _ => c = '-'
  | [] => false

/-- The digits of a literal: what follows an optional leading `+` or `-`. -/
def literalDigits (s : List Char) : List Char :=
  match s with
  | c :: cs => if c = '+' ∨ c = '-' then cs else c :: cs
  | [] => []

/-- The value of `s` read as a base-10 signed 64-bit integer literal: an optional
sign, then one or more decimal digits, denoting a number in
`[-2^63, 2^63 - 1]`; `none` when `s` is not such a literal. -/
def int64Literal (s : String) : Option Int :=
  let ds := literalDigits s.data
  let v : Int := if literalNeg s.data then -(decimalValue ds : Int) else (decimalValue ds : Int)
  if ds ≠ [] ∧ ds.all isDecimalDigit = true ∧
      -9223372036854775808 ≤ v ∧ v ≤ 9223372036854775807 then some v
  else none

/-- The test of the loop of `getPosts`, as a predicate: the parsed ID of the item
is strictly greater than the cutoff. -/
def newerThan (id : Int) (media : IGMedia) : Bool := decide (id < getInt media.Id 0)

/-- The text before the first `_` of an identifier. -/
def beforeUnderscore (storyId : String) : String :=
  String.mk (storyId.data.takeWhile (fun x => decide (x ≠ '_')))

/-- The test of the loop of `getStories`, as a predicate: the item has a
derived numeric ID and it is strictly greater than the cutoff. -/
def storyNewerThan (lastId : Int) (story : IGItem) : Bool :=
  match getStoryIdWithoutUserId story.Id with
  | .ok storyId => decide (lastId < storyId)
  | .error _ => false

/-- The story `st` is the one built from the item `story`: from its derived
numeric ID and the first of its media URLs. -/
def IsStoryOf (story : IGItem) (st : InstaStory) : Prop :=
  ∃ storyId media0, getStoryIdWithoutUserId story.Id = .ok storyId
    ∧ story.GetMediaUrls.head? = some media0 ∧ st = storyInfoOf story storyId media0

/-- The story items `getStories` iterates over (l. 129-132). -/
def storyItems (GetUserId : String → String) (handler : InstagramHandler) (name : String) :
    List IGItem :=
  (handler.PrivateAPIManager.GetUserStory (GetUserId name)).GetItems

/-! ## Concrete upstream data -/

/-- A media item with the given identifier and kind, post code `"c" ++ id`. -/
def demoMedia (id : String) (isVideo : Bool) : IGMedia :=
  { Id := id
    IsVideo := isVideo
    EdgeMediaPreviewLikeCount := 3
    EdgeMediaToCaption := ["caption " ++ id]
    GetPostUrl := "https://www.instagram.com/p/c" ++ id ++ "/"
    GetPostCode := "c" ++ id
    GetMediaUrls := [] }

/-- A story item with the given composite identifier and media URLs. -/
def demoItem (id : String) (urls : List String) : IGItem :=
  { Id := id, GetPostUrl := "https://www.instagram.com/stories/" ++ id, GetMediaUrls := urls }

/-- A client answering every request with fixed data; `tag` marks the media
URLs of its post-info lookup. -/
def demoManager (tag : String) (isPrivate : Bool) (medias : List IGMedia)
    (items : List IGItem) : IGApiManager :=
  { GetUserInfo := fun _ => { IsPrivate := isPrivate }
    GetAllPostMedia := fun _ => medias
    GetPostInfo := fun code => { demoMedia code false with GetMediaUrls := [tag ++ "/" ++ code] }
    GetUserStory := fun _ => { GetItems := items } }

/-- A handler over a public profile with the given media list and story items. -/
def demoHandler (medias : List IGMedia) (items : List IGItem) : InstagramHandler :=
  { PrivateAPIManager := demoManager "private" false medias items
    PublicAPIManager := demoManager "public" false medias items }

/-- The media list with post IDs `[50, 30, 80, 20]`, the third a video. -/
def mediasOutOfOrder : List IGMedia :=
  [demoMedia "50" false, demoMedia "30" false, demoMedia "80" true, demoMedia "20" false]

/-- A media list in newest-first order, post IDs `[80, 50, 30, 20]`. -/
def mediasNewestFirst : List IGMedia :=
  [demoMedia "80" true, demoMedia "50" false, demoMedia "30" false, demoMedia "20" false]

/-- Story items with derived IDs `[10, 40, 15]`. -/
def demoStories : List IGItem :=
  [demoItem "10_7" ["a.jpg"], demoItem "40_7" ["b.mp4", "b.jpg"], demoItem "15_7" ["c.jpg"]]

/-- The outcome of the client call named `here` when the call named `call` is
the one that panics. -/
def panicIn {α : Type} (call here : String) (v : α) : Except Panic α :=
  if call = here then .error (.library ("panic in " ++ here)) else .ok v

/-- The client `m`, named `tag`, whose call `call` panics. -/
def demoPanickingManager (call tag : String) (m : IGApiManager) : PanickingApiManager :=
  { GetUserInfo := fun name => panicIn call (tag ++ ".GetUserInfo") (m.GetUserInfo name)
    GetAllPostMedia := fun name =>
      panicIn call (tag ++ ".GetAllPostMedia") (m.GetAllPostMedia name)
    GetPostInfo := fun code => panicIn call (tag ++ ".GetPostInfo") (m.GetPostInfo code)
    GetUserStory := fun userId => panicIn call (tag ++ ".GetUserStory") (m.GetUserStory userId) }

/-- The handler over the media list `mediasOutOfOrder` (the item with ID 80 is a
video) and the story items `demoStories`, whose client call `call` panics. -/
def demoPanickingHandler (call : String) : PanickingHandler :=
  { PrivateAPIManager :=
      demoPanickingManager call "private" (demoHandler mediasOutOfOrder demoStories).PrivateAPIManager
    PublicAPIManager :=
      demoPanickingManager call "public" (demoHandler mediasOutOfOrder demoStories).PublicAPIManager }

/-- The package-level `instago.GetUserId` when the call `call` is the one that
panics. -/
def demoGetUserId (call : String) (name : String) : Except Panic String :=
  panicIn call "GetUserId" name

/-- A stand-in for `json.Marshal`: the user name and the IDs of the posts and of
the stories. -/
def demoMarshal (resp : InstaUser) : String :=
  resp.UserName ++ ":" ++ String.intercalate "," (resp.Posts.map (fun p => p.ID))
    ++ ":" ++ String.intercalate "," (resp.Stories.map (fun st => st.ID))

/-- The path variables of a request for user `u` with the given `last`. -/
def demoVars (last : String) (key : String) : String :=
  if key = "username" then "u" else if key = "last" then last else ""

/-! ## Lemmas on `strconv` -/

theorem digitVal_of_digit (c : Char) (h : isDecimalDigit c = true) :
    digitVal c = some (c.toNat - 48) ∧ c.toNat - 48 < 10 := by
  simp only [isDecimalDigit, decide_eq_true_eq] at h
  refine ⟨by simp [digitVal, h], by omega⟩

theorem digitVal_of_not_digit (c : Char) (h : isDecimalDigit c = false) :
    digitVal c = none ∨ ∃ d, digitVal c = some d ∧ 10 ≤ d := by
  simp only [isDecimalDigit, decide_eq_false_iff_not] at h
  unfold digitVal
  rw [if_neg h]
  split
  · exact Or.inr ⟨_, rfl, by omega⟩
  · exact Or.inl rfl

theorem le_decimalFrom (ds : List Char) (n : Nat) : n ≤ decimalFrom n ds := by
  induction ds generalizing n with
  | nil => simp [decimalFrom]
  | cons c cs ih =>
    have h := ih (10 * n + (c.toNat - 48))
    simp only [decimalFrom, List.foldl_cons] at h ⊢
    omega

theorem decimalFrom_cons (c : Char) (cs : List Char) (n : Nat) :
    decimalFrom n (c :: cs) = decimalFrom (10 * n + (c.toNat - 48)) cs := rfl

/-- One round of the loop of `ParseUint` on a decimal digit `d`. -/
theorem ParseUintLoop_cons (c : Char) (cs : List Char) (n d : Nat)
    (hdv : digitVal c = some d) (hlt : d < 10) :
    ParseUintLoop (c :: cs) n =
      if 10 * n + d ≤ maxUint64 then ParseUintLoop cs (10 * n + d) else .error .ErrRange := by
  rw [ParseUintLoop]
  simp only [hdv]
  rw [if_neg (by omega)]
  by_cases h1 : n ≥ maxUint64 / 10 + 1
  · rw [if_pos h1, if_neg (by simp only [maxUint64] at h1 ⊢; omega)]
  · rw [if_neg h1]
    simp only [maxUint64] at h1
    have e2 : n * 10 % uint64Size = 10 * n := by
      simp only [uint64Size]; omega
    simp only [e2]
    by_cases h2 : 10 * n + d ≤ maxUint64
    · have e1 : (10 * n + d) % uint64Size = 10 * n + d := by
        simp only [uint64Size, maxUint64] at h2 ⊢; omega
      rw [if_pos h2, e1, if_neg (by omega)]
    · have e1 : (10 * n + d) % uint64Size < 10 * n := by
        simp only [uint64Size, maxUint64] at h2 ⊢; omega
      rw [if_neg h2, if_pos (Or.inl e1)]

/-- The loop of `ParseUint` succeeds, with the denoted number, on digits that
stay within `uint64`. -/
theorem ParseUintLoop_ok (cs : List Char) (n : Nat)
    (hd : cs.all isDecimalDigit = true) (hv : decimalFrom n cs ≤ maxUint64) :
    ParseUintLoop cs n = .ok (decimalFrom n cs) := by
  induction cs generalizing n with
  | nil => rfl
  | cons c cs ih =>
    simp only [List.all_cons, Bool.and_eq_true] at hd
    obtain ⟨hc, hcs⟩ := hd
    obtain ⟨hdv, hlt⟩ := digitVal_of_digit c hc
    rw [decimalFrom_cons] at hv ⊢
    have hle := le_decimalFrom cs (10 * n + (c.toNat - 48))
    rw [ParseUintLoop_cons c cs n _ hdv hlt, if_pos (by omega)]
    exact ih _ hcs hv

/-- The loop of `ParseUint` reports an error on anything else: a character that
is no decimal digit, or a number beyond `uint64`. -/
theorem ParseUintLoop_error (cs : List Char) (n : Nat)
    (h : ¬ (cs.all isDecimalDigit = true ∧ decimalFrom n cs ≤ maxUint64))
    (hn : n ≤ maxUint64) :
    ∃ e, ParseUintLoop cs n = .error e := by
  induction cs generalizing n with
  | nil =>
    exfalso; apply h
    simpa [decimalFrom] using hn
  | cons c cs ih =>
    cases hc : isDecimalDigit c with
    | false =>
      rcases digitVal_of_not_digit c hc with h0 | ⟨d, h0, hd⟩
      · exact ⟨.ErrSyntax, by unfold ParseUintLoop; simp only [h0]⟩
      · refine ⟨.ErrSyntax, ?_⟩
        unfold ParseUintLoop
        simp only [h0]
        rw [if_pos hd]
    | true =>
      obtain ⟨hdv, hlt⟩ := digitVal_of_digit c hc
      rw [ParseUintLoop_cons c cs n _ hdv hlt]
      by_cases h2 : 10 * n + (c.toNat - 48) ≤ maxUint64
      · rw [if_pos h2]
        apply ih _ _ h2
        intro hcs
        apply h
        simpa [hc, decimalFrom_cons] using hcs
      · rw [if_neg h2]
        exact ⟨_, rfl⟩

/-- The outcome of `ParseUint`: the denoted number for a non-empty string of decimal digits
within `uint64`, an error otherwise. -/
theorem ParseUint_ok (ds : List Char) (h0 : ds ≠ [])
    (hd : ds.all isDecimalDigit = true) (hv : decimalValue ds ≤ maxUint64) :
    ParseUint ds = .ok (decimalValue ds) := by
  cases ds with
  | nil => exact absurd rfl h0
  | cons c cs => exact ParseUintLoop_ok (c :: cs) 0 hd hv

theorem ParseUint_error (ds : List Char)
    (h : ¬ (ds ≠ [] ∧ ds.all isDecimalDigit = true ∧ decimalValue ds ≤ maxUint64)) :
    ∃ e, ParseUint ds = .error e := by
  cases ds with
  | nil => exact ⟨_, rfl⟩
  | cons c cs =>
    apply ParseUintLoop_error (c :: cs) 0 _ (by simp [maxUint64])
    intro hh
    exact h ⟨by simp, hh.1, hh.2⟩

/-- The sign and digits `ParseInt` works on are those of the literal. -/
theorem ParseInt_eq (s : String) :
    ParseInt s =
      match ParseUint (literalDigits s.data) with
      | .ok un =>
        if literalNeg s.data = false ∧ un ≥ 9223372036854775808 then .error .ErrRange
        else if literalNeg s.data = true ∧ un > 9223372036854775808 then .error .ErrRange
        else .ok (if literalNeg s.data then negInt64 (toInt64 un) else toInt64 un)
      | .error e => .error e := by
  unfold ParseInt
  cases hs : s.data with
  | nil => rfl
  | cons c cs =>
    have hrest : (if c = '+' then cs else if c = '-' then cs else c :: cs)
        = literalDigits (c :: cs) := by
      simp only [literalDigits]
      split_ifs <;> simp_all
    simp only [hrest, literalNeg]
    cases h : ParseUint (literalDigits (c :: cs)) with
    | error e => cases e <;> simp [maxUint64]
    | ok un => simp

/-- The function `getInt` against the literal it is given: the value of a base-10
signed 64-bit literal, the default for every other string. -/
theorem getInt_eq_literal (s : String) (d : Int) :
    getInt s d = (int64Literal s).getD d := by
  unfold getInt int64Literal
  rw [ParseInt_eq]
  by_cases hl : literalDigits s.data ≠ [] ∧ (literalDigits s.data).all isDecimalDigit = true
      ∧ decimalValue (literalDigits s.data) ≤ maxUint64
  · obtain ⟨h0, hd, hv⟩ := hl
    rw [ParseUint_ok _ h0 hd hv]
    simp only [maxUint64] at hv
    cases hneg : literalNeg s.data <;>
      simp only [h0, hd, ne_eq, not_false_eq_true, true_and, toInt64, negInt64] <;>
      split_ifs <;> simp_all <;> omega
  · obtain ⟨e, he⟩ := ParseUint_error _ hl
    rw [he, if_neg]
    · rfl
    · rintro ⟨h0, hd, hlo, hhi⟩
      apply hl
      refine ⟨h0, hd, ?_⟩
      simp only [maxUint64]
      split_ifs at hlo hhi <;> omega

/-! ## `FormatInt` renders what `ParseInt` reads -/

theorem digitChar_spec (d : Nat) (h : d < 10) :
    (digitChar d).toNat - 48 = d ∧ isDecimalDigit (digitChar d) = true := by
  interval_cases d <;> decide

theorem formatBitsLoop_acc (fuel u : Nat) (acc : List Char) :
    formatBitsLoop fuel u acc = formatBitsLoop fuel u [] ++ acc := by
  induction fuel generalizing u acc with
  | zero => rfl
  | succ fuel ih =>
    rw [formatBitsLoop, formatBitsLoop]
    by_cases h : u ≥ 10
    · rw [if_pos h, if_pos h, ih (u / 10) (digitChar (u % 10) :: acc),
        ih (u / 10) [digitChar (u % 10)]]
      simp
    · rw [if_neg h, if_neg h]
      rfl

theorem decimalFrom_append_singleton (n : Nat) (xs : List Char) (c : Char) :
    decimalFrom n (xs ++ [c]) = 10 * decimalFrom n xs + (c.toNat - 48) := by
  simp [decimalFrom, List.foldl_append]

theorem formatBitsLoop_spec (fuel u : Nat) (h : u < 10 ^ (fuel + 1)) :
    decimalValue (formatBitsLoop fuel u []) = u
      ∧ (formatBitsLoop fuel u []).all isDecimalDigit = true
      ∧ formatBitsLoop fuel u [] ≠ [] := by
  induction fuel generalizing u with
  | zero =>
    have hu : u < 10 := by simpa using h
    obtain ⟨h1, h2⟩ := digitChar_spec u hu
    simp [formatBitsLoop, decimalValue, decimalFrom, h1, h2]
  | succ fuel ih =>
    rw [formatBitsLoop]
    by_cases hu : u ≥ 10
    · rw [if_pos hu, formatBitsLoop_acc]
      have hdiv : u / 10 < 10 ^ (fuel + 1) := by
        rw [Nat.div_lt_iff_lt_mul (by norm_num)]
        rw [pow_succ] at h
        exact h
      obtain ⟨i1, i2, -⟩ := ih (u / 10) hdiv
      obtain ⟨h1, h2⟩ := digitChar_spec (u % 10) (Nat.mod_lt _ (by norm_num))
      refine ⟨?_, ?_, by simp⟩
      · unfold decimalValue at i1 ⊢
        rw [decimalFrom_append_singleton, i1, h1]
        omega
      · simp [List.all_append, i2, h2]
    · rw [if_neg hu]
      obtain ⟨h1, h2⟩ := digitChar_spec u (by omega)
      simp [decimalValue, decimalFrom, h1, h2]

theorem sign_not_digit (c : Char) (h : isDecimalDigit c = true) : ¬ (c = '+' ∨ c = '-') := by
  rintro (rfl | rfl) <;> revert h <;> decide

/-- The rendering of an `int64` by `FormatInt` is the decimal literal of that
number. -/
theorem int64Literal_FormatInt (n : Int)
    (hlo : -9223372036854775808 ≤ n) (hhi : n ≤ 9223372036854775807) :
    int64Literal (FormatInt n) = some n := by
  have hlt : n.natAbs < 10 ^ (20 + 1) := by
    have : n.natAbs ≤ 9223372036854775808 := by omega
    exact lt_of_le_of_lt this (by norm_num)
  obtain ⟨hv, hd, hne⟩ := formatBitsLoop_spec 20 n.natAbs hlt
  unfold int64Literal FormatInt
  by_cases hneg : n < 0
  · simp only [hneg, if_true]
    have e1 : literalDigits ('-' :: formatBitsLoop 20 n.natAbs [])
        = formatBitsLoop 20 n.natAbs [] := by simp [literalDigits]
    have e2 : literalNeg ('-' :: formatBitsLoop 20 n.natAbs []) = true := by simp [literalNeg]
    rw [e1, e2, hv]
    have e3 : -(n.natAbs : Int) = n := by omega
    simp only [if_true, e3]
    rw [if_pos ⟨hne, hd, hlo, hhi⟩]
  · simp only [hneg, if_false]
    cases hds : formatBitsLoop 20 n.natAbs [] with
    | nil => exact absurd hds hne
    | cons c cs =>
      rw [hds] at hv hd
      have hc : isDecimalDigit c = true := by
        simp only [List.all_cons, Bool.and_eq_true] at hd
        exact hd.1
      have hsign := sign_not_digit c hc
      have e1 : literalDigits (c :: cs) = c :: cs := by
        simp only [literalDigits]; rw [if_neg hsign]
      have e2 : literalNeg (c :: cs) = false := by
        simp only [literalNeg, decide_eq_false_iff_not]
        exact fun e => hsign (Or.inr e)
      rw [e1, e2, hv]
      have e3 : (n.natAbs : Int) = n := by omega
      simp only [Bool.false_eq_true, if_false, e3]
      rw [if_pos ⟨by simp, hd, hlo, hhi⟩]

theorem int64Literal_range (s : String) (n : Int) (h : int64Literal s = some n) :
    -9223372036854775808 ≤ n ∧ n ≤ 9223372036854775807 := by
  unfold int64Literal at h
  by_cases hc : literalDigits s.data ≠ [] ∧ (literalDigits s.data).all isDecimalDigit = true ∧
      -9223372036854775808 ≤ (if literalNeg s.data then -(decimalValue (literalDigits s.data) : Int)
        else (decimalValue (literalDigits s.data) : Int)) ∧
      (if literalNeg s.data then -(decimalValue (literalDigits s.data) : Int)
        else (decimalValue (literalDigits s.data) : Int)) ≤ 9223372036854775807
  · rw [if_pos hc] at h
    injection h with h
    rw [← h]
    exact hc.2.2
  · rw [if_neg hc] at h
    exact Option.noConfusion h

/-- Parsing back the rendering of an `int64` gives the number. -/
theorem getInt_FormatInt (n d : Int)
    (hlo : -9223372036854775808 ≤ n) (hhi : n ≤ 9223372036854775807) :
    getInt (FormatInt n) d = n := by
  rw [getInt_eq_literal, int64Literal_FormatInt n hlo hhi]
  rfl

/-! ## Post retrieval -/

theorem getPostsLoop_eq (handler : InstagramHandler) (id : Int) (medias : List IGMedia)
    (posts : List InstaPost) :
    getPostsLoop handler id medias posts
      = posts ++ (medias.takeWhile (newerThan id)).map (postInfoOf handler) := by
  induction medias generalizing posts with
  | nil => simp [getPostsLoop]
  | cons media medias ih =>
    rw [getPostsLoop]
    by_cases h : getInt media.Id 0 ≤ id
    · have hp : newerThan id media = false := by simp [newerThan, h]
      simp [h, List.takeWhile_cons, hp]
    · have hp : newerThan id media = true := by simpa [newerThan] using h
      simp [h, List.takeWhile_cons, hp, ih]

theorem getPosts_Posts (handler : InstagramHandler) (name : String) (id : Int) :
    (getPosts handler name id).Posts
      = ((postMedias handler name).takeWhile (newerThan id)).map (postInfoOf handler) := by
  simp [getPosts, getPostsLoop_eq]

theorem takeWhile_eq_filter_of_sorted (id : Int) (medias : List IGMedia)
    (h : (medias.map (fun m => getInt m.Id 0)).Pairwise (fun a b => b ≤ a)) :
    medias.takeWhile (newerThan id) = medias.filter (newerThan id) := by
  induction medias with
  | nil => rfl
  | cons media medias ih =>
    simp only [List.map_cons, List.pairwise_cons] at h
    obtain ⟨hhead, htail⟩ := h
    cases hp : newerThan id media with
    | true => simp [List.takeWhile_cons, List.filter_cons, hp, ih htail]
    | false =>
      have hle : getInt media.Id 0 ≤ id := by simpa [newerThan] using hp
      have hnone : medias.filter (newerThan id) = [] := by
        rw [List.filter_eq_nil_iff]
        intro m hm
        have := hhead (getInt m.Id 0) (List.mem_map_of_mem _ hm)
        simp only [newerThan, decide_eq_true_eq]
        omega
      simp [List.takeWhile_cons, List.filter_cons, hp, hnone]

theorem postInfoOf_ID (handler : InstagramHandler) (media : IGMedia) :
    (postInfoOf handler media).ID = media.Id := by
  unfold postInfoOf
  cases media.EdgeMediaToCaption <;> cases media.IsVideo <;> rfl

theorem postInfoOf_video (handler : InstagramHandler) (media : IGMedia)
    (h : media.IsVideo = true) :
    (postInfoOf handler media).VideoURLs
        = (handler.PrivateAPIManager.GetPostInfo media.GetPostCode).GetMediaUrls
      ∧ (postInfoOf handler media).PhotoURLs = [] := by
  unfold postInfoOf
  cases media.EdgeMediaToCaption <;> simp [h]

theorem postInfoOf_photo (handler : InstagramHandler) (media : IGMedia)
    (h : media.IsVideo = false) :
    (postInfoOf handler media).PhotoURLs
        = (handler.PublicAPIManager.GetPostInfo media.GetPostCode).GetMediaUrls
      ∧ (postInfoOf handler media).VideoURLs = [] := by
  unfold postInfoOf
  cases media.EdgeMediaToCaption <;> simp [h]

theorem getPosts_IDs (handler : InstagramHandler) (name : String) (id : Int) :
    (getPosts handler name id).Posts.map (fun p => p.ID)
      = ((postMedias handler name).map (fun m => m.Id)).takeWhile
          (fun s => decide (id < getInt s 0)) := by
  rw [getPosts_Posts, List.takeWhile_map, List.map_map]
  have hf : (fun p => p.ID) ∘ postInfoOf handler = fun m => m.Id := by
    funext m; exact postInfoOf_ID handler m
  rw [hf]
  rfl

theorem mem_takeWhile_mem (id : Int) (medias : List IGMedia) (m : IGMedia)
    (h : m ∈ medias.takeWhile (newerThan id)) : m ∈ medias :=
  (List.takeWhile_prefix (newerThan id)).subset h

/-! ## Story identifiers -/

theorem IndexByteFrom_of_not_mem (c : Char) (xs : List Char) (i : Nat) (h : c ∉ xs) :
    IndexByteFrom c xs i = -1 := by
  induction xs generalizing i with
  | nil => rfl
  | cons x xs ih =>
    simp only [List.mem_cons, not_or] at h
    rw [IndexByteFrom, if_neg (fun e => h.1 e.symm)]
    exact ih _ h.2

theorem IndexByteFrom_of_mem (c : Char) (xs : List Char) (i : Nat) (h : c ∈ xs) :
    IndexByteFrom c xs i = ((i + (xs.takeWhile (fun x => decide (x ≠ c))).length : Nat) : Int) := by
  induction xs generalizing i with
  | nil => simp at h
  | cons x xs ih =>
    rw [IndexByteFrom]
    by_cases hx : x = c
    · simp [hx]
    · have hmem : c ∈ xs := by
        rcases List.mem_cons.mp h with h1 | h1
        · exact absurd h1.symm hx
        · exact h1
      rw [if_neg hx, ih _ hmem]
      simp only [List.takeWhile_cons, hx, ne_eq, not_false_eq_true, decide_True, if_true,
        List.length_cons]
      congr 1
      omega

theorem take_length_takeWhile (q : Char → Bool) (xs : List Char) :
    xs.take (xs.takeWhile q).length = xs.takeWhile q :=
  (List.prefix_iff_eq_take.mp (List.takeWhile_prefix q)).symm

theorem getStoryIdWithoutUserId_of_not_mem (storyId : String) (h : '_' ∉ storyId.data) :
    getStoryIdWithoutUserId storyId = .error (.sliceBoundsOutOfRange (-1)) := by
  unfold getStoryIdWithoutUserId sliceTo IndexByte
  rw [IndexByteFrom_of_not_mem _ _ _ h]
  simp

theorem getStoryIdWithoutUserId_of_mem (storyId : String) (h : '_' ∈ storyId.data) :
    getStoryIdWithoutUserId storyId = .ok (getInt (beforeUnderscore storyId) 0) := by
  unfold getStoryIdWithoutUserId sliceTo IndexByte beforeUnderscore
  rw [IndexByteFrom_of_mem _ _ _ h]
  have hle : (storyId.data.takeWhile (fun x => decide (x ≠ '_'))).length ≤ storyId.data.length :=
    (List.takeWhile_prefix _).length_le
  simp only [Nat.zero_add, Int.toNat_ofNat, take_length_takeWhile]
  rw [if_pos ⟨by omega, by omega⟩]

theorem underscore_not_digit (c : Char) (h : isDecimalDigit c = true) : c ≠ '_' := by
  rintro rfl
  revert h
  decide

theorem int64Literal_no_underscore (s : String) (n : Int) (h : int64Literal s = some n) :
    '_' ∉ s.data := by
  have hd : (literalDigits s.data).all isDecimalDigit = true := by
    unfold int64Literal at h
    by_contra hcon
    rw [if_neg (fun hh => hcon hh.2.1)] at h
    exact Option.noConfusion h
  have hdig : ∀ c ∈ literalDigits s.data, c ≠ '_' := fun c hc =>
    underscore_not_digit c (List.all_eq_true.mp hd c hc)
  intro hmem
  cases hs : s.data with
  | nil => rw [hs] at hmem; simp at hmem
  | cons c cs =>
    rw [hs] at hmem hdig
    simp only [literalDigits] at hdig
    split_ifs at hdig with hsign
    · rcases List.mem_cons.mp hmem with h1 | h1
      · rcases hsign with h2 | h2 <;> rw [← h1] at h2 <;> revert h2 <;> decide
      · exact hdig _ h1 rfl
    · exact hdig _ hmem rfl

theorem beforeUnderscore_append (pre rest : String) (h : '_' ∉ pre.data) :
    beforeUnderscore (pre ++ "_" ++ rest) = pre := by
  have hd : (pre ++ "_" ++ rest).data = pre.data ++ '_' :: rest.data := by
    simp [String.data_append]
  unfold beforeUnderscore
  rw [hd, List.takeWhile_append_of_pos]
  · simp
  · intro c hc
    have : c ≠ '_' := fun e => h (e ▸ hc)
    simpa using this

theorem getStoryIdWithoutUserId_literal (pre rest : String) (n : Int)
    (h : int64Literal pre = some n) :
    getStoryIdWithoutUserId (pre ++ "_" ++ rest) = .ok n := by
  have hmem : '_' ∈ (pre ++ "_" ++ rest).data := by simp [String.data_append]
  rw [getStoryIdWithoutUserId_of_mem _ hmem,
    beforeUnderscore_append pre rest (int64Literal_no_underscore pre n h),
    getInt_eq_literal, h]
  rfl

/-! ## Story retrieval -/

theorem getStoriesLoop_append (lastId : Int) (xs ys : List IGItem) (stories : List InstaStory) :
    getStoriesLoop lastId (xs ++ ys) stories =
      match getStoriesLoop lastId xs stories with
      | .error r => .error r
      | .ok res => getStoriesLoop lastId ys res := by
  induction xs generalizing stories with
  | nil => rfl
  | cons x xs ih =>
    rw [List.cons_append, getStoriesLoop, getStoriesLoop]
    cases hid : getStoryIdWithoutUserId x.Id with
    | error r => rfl
    | ok storyId =>
      simp only
      by_cases hle : storyId ≤ lastId
      · rw [if_pos hle, if_pos hle, ih]
      · rw [if_neg hle, if_neg hle]
        cases hm : index0 x.GetMediaUrls with
        | error r => rfl
        | ok media0 => simp only [ih]

theorem index0_ok (a : List String) (x : String) (h : index0 a = .ok x) : a.head? = some x := by
  cases a with
  | nil => simp [index0] at h
  | cons y ys => simp only [index0, Except.ok.injEq] at h; simp [h]

/-- What the loop of `getStories` returns when it does not fault. -/
theorem getStoriesLoop_ok (lastId : Int) (items : List IGItem) (stories res : List InstaStory)
    (h : getStoriesLoop lastId items stories = .ok res) :
    ∃ new, res = stories ++ new
      ∧ List.Forall₂ IsStoryOf (items.filter (storyNewerThan lastId)) new := by
  induction items generalizing stories with
  | nil =>
    simp only [getStoriesLoop, Except.ok.injEq] at h
    exact ⟨[], by simp [h], by simp⟩
  | cons x xs ih =>
    rw [getStoriesLoop] at h
    cases hid : getStoryIdWithoutUserId x.Id with
    | error r => rw [hid] at h; simp at h
    | ok storyId =>
      rw [hid] at h
      simp only at h
      by_cases hle : storyId ≤ lastId
      · rw [if_pos hle] at h
        obtain ⟨new, hres, hall⟩ := ih stories h
        refine ⟨new, hres, ?_⟩
        have hx : storyNewerThan lastId x = false := by
          simp [storyNewerThan, hid, hle]
        simpa [List.filter_cons, hx] using hall
      · rw [if_neg hle] at h
        cases hm : index0 x.GetMediaUrls with
        | error r => rw [hm] at h; simp at h
        | ok media0 =>
          rw [hm] at h
          simp only at h
          obtain ⟨new, hres, hall⟩ := ih _ h
          refine ⟨storyInfoOf x storyId media0 :: new, by simp [hres], ?_⟩
          have hx : storyNewerThan lastId x = true := by
            simpa [storyNewerThan, hid] using hle
          rw [List.filter_cons, hx]
          exact List.Forall₂.cons ⟨storyId, media0, hid, index0_ok _ _ hm, rfl⟩ hall

/-- The loop of `getStories` runs through when every item has an underscore in its
identifier and every item newer than the cutoff has a media URL. -/
theorem getStoriesLoop_returns (lastId : Int) (items : List IGItem) (stories : List InstaStory)
    (h : ∀ item ∈ items, '_' ∈ item.Id.data
      ∧ (storyNewerThan lastId item = true → item.GetMediaUrls ≠ [])) :
    ∃ res, getStoriesLoop lastId items stories = .ok res := by
  induction items generalizing stories with
  | nil => exact ⟨stories, rfl⟩
  | cons x xs ih =>
    have hxs : ∀ item ∈ xs, '_' ∈ item.Id.data
        ∧ (storyNewerThan lastId item = true → item.GetMediaUrls ≠ []) :=
      fun item hi => h item (List.mem_cons_of_mem _ hi)
    obtain ⟨hx1, hx2⟩ := h x (List.mem_cons_self _ _)
    have hid := getStoryIdWithoutUserId_of_mem x.Id hx1
    rw [getStoriesLoop, hid]
    simp only
    by_cases hle : getInt (beforeUnderscore x.Id) 0 ≤ lastId
    · rw [if_pos hle]
      exact ih stories hxs
    · rw [if_neg hle]
      have hnew : storyNewerThan lastId x = true := by
        simpa [storyNewerThan, hid] using hle
      cases hm : x.GetMediaUrls with
      | nil => exact absurd hm (hx2 hnew)
      | cons u us =>
        simp only [index0]
        exact ih _ hxs

theorem getStories_eq (GetUserId : String → String) (handler : InstagramHandler)
    (name : String) (lastId : Int) :
    getStories GetUserId handler name lastId =
      match getStoriesLoop lastId (storyItems GetUserId handler name) [] with
      | .error r => .error r
      | .ok res => .ok { UserName := name, Posts := [], Stories := res } := rfl

theorem forall₂_IsStoryOf_ids (xs : List IGItem) (ys : List InstaStory)
    (h : List.Forall₂ IsStoryOf xs ys) :
    ys.map (fun st => st.OriginalID) = xs.map (fun x => x.Id) := by
  induction h with
  | nil => rfl
  | cons hxy _ ih =>
    obtain ⟨n, u, -, -, rfl⟩ := hxy
    simp [storyInfoOf, ih]

theorem forall₂_exists_of_mem {R : IGItem → InstaStory → Prop} (xs : List IGItem)
    (ys : List InstaStory) (h : List.Forall₂ R xs ys) (x : IGItem) (hx : x ∈ xs) :
    ∃ y ∈ ys, R x y := by
  induction h with
  | nil => simp at hx
  | cons hxy _ ih =>
    rcases List.mem_cons.mp hx with h1 | h1
    · exact ⟨_, List.mem_cons_self _ _, h1 ▸ hxy⟩
    · obtain ⟨y, hy, hr⟩ := ih h1
      exact ⟨y, List.mem_cons_of_mem _ hy, hr⟩

/-- An item on which one round of the loop faults makes the whole loop fault;
the fault is that of the item when the items before it run through. -/
theorem getStoriesLoop_fault_at (lastId : Int) (pre post : List IGItem) (item : IGItem)
    (stories : List InstaStory) (r : Fault)
    (hstep : ∀ acc, getStoriesLoop lastId (item :: post) acc = .error r) :
    (∃ r1, getStoriesLoop lastId (pre ++ item :: post) stories = .error r1)
      ∧ (∀ res, getStoriesLoop lastId pre stories = .ok res →
          getStoriesLoop lastId (pre ++ item :: post) stories = .error r) := by
  rw [getStoriesLoop_append]
  cases hpre : getStoriesLoop lastId pre stories with
  | error r1 => exact ⟨⟨r1, rfl⟩, fun res h => Except.noConfusion h⟩
  | ok res => exact ⟨⟨r, hstep res⟩, fun _ _ => hstep res⟩

theorem getStoriesLoop_skip (lastId : Int) (pre post : List IGItem) (item : IGItem)
    (stories : List InstaStory) (n : Int)
    (hid : getStoryIdWithoutUserId item.Id = .ok n) (hle : n ≤ lastId) :
    getStoriesLoop lastId (pre ++ item :: post) stories
      = getStoriesLoop lastId (pre ++ post) stories := by
  rw [getStoriesLoop_append, getStoriesLoop_append]
  cases getStoriesLoop lastId pre stories with
  | error r1 => rfl
  | ok res =>
    simp only
    rw [getStoriesLoop, hid]
    simp only
    rw [if_pos hle]

/-- The response of `getStories` when it does not fault. -/
theorem getStories_ok (GetUserId : String → String) (handler : InstagramHandler)
    (name : String) (lastId : Int) (r : InstaUser)
    (h : getStories GetUserId handler name lastId = .ok r) :
    r.UserName = name ∧ r.Posts = []
    ∧ List.Forall₂ IsStoryOf
        ((storyItems GetUserId handler name).filter (storyNewerThan lastId)) r.Stories := by
  rw [getStories_eq] at h
  cases hloop : getStoriesLoop lastId (storyItems GetUserId handler name) [] with
  | error r1 => rw [hloop] at h; exact Except.noConfusion h
  | ok res =>
    rw [hloop] at h
    simp only [Except.ok.injEq] at h
    obtain ⟨new, hres, hall⟩ := getStoriesLoop_ok lastId _ [] res hloop
    simp only [List.nil_append] at hres
    subst hres
    subst h
    exact ⟨rfl, rfl, hall⟩

/-! ## Retrieval over a client that may panic -/

theorem postInfoCall_toPanicking (handler : InstagramHandler) (media : IGMedia) :
    postInfoCall handler.toPanicking media = .ok (postInfoOf handler media) := by
  unfold postInfoCall postInfoOf
  cases media.IsVideo <;> rfl

theorem getPostsLoopCall_toPanicking (handler : InstagramHandler) (id : Int)
    (medias : List IGMedia) (posts : List InstaPost) :
    getPostsLoopCall handler.toPanicking id medias posts
      = .ok (getPostsLoop handler id medias posts) := by
  induction medias generalizing posts with
  | nil => rfl
  | cons media medias ih =>
    rw [getPostsLoopCall, getPostsLoop, postInfoCall_toPanicking]
    by_cases h : getInt media.Id 0 ≤ id
    · simp only [h, if_true]
    · simp only [h, if_false, ih]

/-- When no call of the client library panics, the call of `getPosts` returns the
response of `getPosts`. -/
theorem getPostsCall_toPanicking (handler : InstagramHandler) (name : String) (id : Int) :
    getPostsCall handler.toPanicking name id = .ok (getPosts handler name id) := by
  have hinfo : handler.toPanicking.PublicAPIManager.GetUserInfo name
      = .ok (handler.PublicAPIManager.GetUserInfo name) := rfl
  have hpub : handler.toPanicking.PublicAPIManager.GetAllPostMedia name
      = .ok (handler.PublicAPIManager.GetAllPostMedia name) := rfl
  have hpriv : handler.toPanicking.PrivateAPIManager.GetAllPostMedia name
      = .ok (handler.PrivateAPIManager.GetAllPostMedia name) := rfl
  unfold getPostsCall getPosts postMedias
  simp only [hinfo, hpub, hpriv]
  cases (handler.PublicAPIManager.GetUserInfo name).IsPrivate <;>
    simp only [getPostsLoopCall_toPanicking, if_true, if_false, Bool.false_eq_true]

/-- When no call of the client library panics, the call of `getStories` ends as
`getStories` does. -/
theorem getStoriesCall_toPanicking (GetUserId : String → String) (handler : InstagramHandler)
    (name : String) (lastId : Int) :
    getStoriesCall (fun name => .ok (GetUserId name)) handler.toPanicking name lastId
      = match getStories GetUserId handler name lastId with
        | .error r => .error (.runtime r)
        | .ok resp => .ok resp := by
  unfold getStoriesCall getStories
  simp only [InstagramHandler.toPanicking, IGApiManager.toPanicking]
  cases getStoriesLoop lastId
    (handler.PrivateAPIManager.GetUserStory (GetUserId name)).GetItems [] <;> rfl

/-! ## The stated properties -/

/-- C1: the posts of `getPosts` are the posts of the longest initial run of the
media list whose parsed IDs all exceed the cutoff, one post per item, in upstream
order; the item after the run, if any, has an ID at most the cutoff.  When every
item exceeds the cutoff there are as many posts as items. -/
theorem getPosts_longest_newer_run (handler : InstagramHandler) (name : String) (id : Int) :
    (getPosts handler name id).Posts
        = ((postMedias handler name).takeWhile (newerThan id)).map (postInfoOf handler)
    ∧ (∃ kept rest, postMedias handler name = kept ++ rest
        ∧ (getPosts handler name id).Posts = kept.map (postInfoOf handler)
        ∧ (∀ m ∈ kept, id < getInt m.Id 0)
        ∧ (∀ m, rest.head? = some m → getInt m.Id 0 ≤ id))
    ∧ ((∀ m ∈ postMedias handler name, id < getInt m.Id 0) →
        (getPosts handler name id).Posts.length = (postMedias handler name).length) := by
  refine ⟨getPosts_Posts handler name id, ?_, ?_⟩
  · refine ⟨(postMedias handler name).takeWhile (newerThan id),
      (postMedias handler name).dropWhile (newerThan id),
      (List.takeWhile_append_dropWhile _ _).symm, getPosts_Posts handler name id, ?_, ?_⟩
    · intro m hm
      simpa [newerThan] using List.mem_takeWhile_imp hm
    · intro m hm
      have h := List.head?_dropWhile_not (newerThan id) (postMedias handler name)
      rw [hm] at h
      simpa [newerThan] using h
  · intro hall
    have hself : (postMedias handler name).takeWhile (newerThan id) = postMedias handler name := by
      rw [List.takeWhile_eq_self_iff]
      intro m hm
      simpa [newerThan] using hall m hm
    rw [getPosts_Posts, hself, List.length_map]

theorem getPosts_longest_newer_run_witness :
    (getPosts (demoHandler mediasOutOfOrder []) "u" 10).Posts.length = 4 :=
  (getPosts_longest_newer_run (demoHandler mediasOutOfOrder []) "u" 10).2.2 (by decide)

/-- C3: on a media list in newest-first order (parsed IDs non-increasing along
the list) stopping at the first ID at most the cutoff is filtering by ID above the
cutoff: the posts are those of exactly the items whose parsed ID exceeds it. -/
theorem getPosts_eq_filter_of_newest_first (handler : InstagramHandler) (name : String)
    (id : Int)
    (hsorted : ((postMedias handler name).map (fun m => getInt m.Id 0)).Chain'
      (fun a b => b ≤ a)) :
    (getPosts handler name id).Posts
        = ((postMedias handler name).filter (newerThan id)).map (postInfoOf handler)
    ∧ (∀ m ∈ postMedias handler name, id < getInt m.Id 0 →
        postInfoOf handler m ∈ (getPosts handler name id).Posts)
    ∧ (∀ p ∈ (getPosts handler name id).Posts,
        ∃ m ∈ postMedias handler name, id < getInt m.Id 0 ∧ p = postInfoOf handler m) := by
  have htrans : IsTrans Int (fun a b => b ≤ a) := ⟨fun _ _ _ hab hbc => le_trans hbc hab⟩
  have hpair := List.chain'_iff_pairwise.mp hsorted
  have heq : (getPosts handler name id).Posts
      = ((postMedias handler name).filter (newerThan id)).map (postInfoOf handler) := by
    rw [getPosts_Posts, takeWhile_eq_filter_of_sorted id _ hpair]
  refine ⟨heq, ?_, ?_⟩
  · intro m hm hgt
    rw [heq]
    exact List.mem_map_of_mem _ (List.mem_filter.mpr ⟨hm, by simpa [newerThan] using hgt⟩)
  · intro p hp
    rw [heq, List.mem_map] at hp
    obtain ⟨m, hm, rfl⟩ := hp
    rw [List.mem_filter] at hm
    exact ⟨m, hm.1, by simpa [newerThan] using hm.2, rfl⟩

theorem getPosts_eq_filter_of_newest_first_witness :
    (getPosts (demoHandler mediasNewestFirst []) "u" 25).Posts.map (fun p => p.ID)
      = ["80", "50", "30"] :=
  ((congrArg (List.map (fun p => p.ID))
    (getPosts_eq_filter_of_newest_first (demoHandler mediasNewestFirst []) "u" 25
      (by
        rw [show (postMedias (demoHandler mediasNewestFirst []) "u").map
          (fun m => getInt m.Id 0) = [80, 50, 30, 20] from by decide]
        simp)).1).trans (by decide))

/-- C4, as the code has it: with post IDs `[50, 30, 80, 20]` and cutoff 25 the
posts are the first three, IDs 50, 30 and 80 (the loop stops at 20, the first ID at
most 25); only the first post, ID 50, is returned for a cutoff from 30 to 49, the
later 80 notwithstanding. -/
theorem getPosts_ids_50_30_80_20 (handler : InstagramHandler) (name : String)
    (hids : (postMedias handler name).map (fun m => m.Id) = ["50", "30", "80", "20"]) :
    (getPosts handler name 25).Posts.map (fun p => p.ID) = ["50", "30", "80"]
    ∧ ∀ c : Int, 30 ≤ c → c < 50 →
        (getPosts handler name c).Posts.map (fun p => p.ID) = ["50"] := by
  have h50 : getInt "50" 0 = 50 := by decide
  have h30 : getInt "30" 0 = 30 := by decide
  have h80 : getInt "80" 0 = 80 := by decide
  have h20 : getInt "20" 0 = 20 := by decide
  constructor
  · rw [getPosts_IDs, hids]
    simp [List.takeWhile_cons, h50, h30, h80, h20]
  · intro c hlo hhi
    rw [getPosts_IDs, hids]
    have h1 : c < 50 := hhi
    have h2 : ¬ c < 30 := by omega
    simp [List.takeWhile_cons, h50, h30, h1, h2]

theorem getPosts_ids_50_30_80_20_witness :
    (getPosts (demoHandler mediasOutOfOrder []) "u" 25).Posts.map (fun p => p.ID)
        = ["50", "30", "80"]
    ∧ (getPosts (demoHandler mediasOutOfOrder []) "u" 30).Posts.map (fun p => p.ID) = ["50"] :=
  ⟨(getPosts_ids_50_30_80_20 (demoHandler mediasOutOfOrder []) "u" (by decide)).1,
    (getPosts_ids_50_30_80_20 (demoHandler mediasOutOfOrder []) "u" (by decide)).2 30
      (by decide) (by decide)⟩

/-- C4 fails as it is written: on the media list with post IDs `[50, 30, 80, 20]`
and cutoff 25, `getPosts` returns three posts, not only the first. -/
theorem getPosts_cutoff25_three_posts :
    (postMedias (demoHandler mediasOutOfOrder []) "u").map (fun m => m.Id)
        = ["50", "30", "80", "20"]
    ∧ (getPosts (demoHandler mediasOutOfOrder []) "u" 25).Posts.map (fun p => p.ID)
        = ["50", "30", "80"]
    ∧ (getPosts (demoHandler mediasOutOfOrder []) "u" 25).Posts.length ≠ 1 := by
  decide

/-- C5: a post of `getPosts` comes from an upstream item newer than the cutoff;
for a video its video URLs are the media URLs of the private client's post-info
lookup for the item's post code and it has no photo URLs, otherwise its photo URLs
are those of the public client's lookup and it has no video URLs.  Photo and video
URLs are never both non-empty. -/
theorem getPosts_media_urls (handler : InstagramHandler) (name : String) (id : Int)
    (p : InstaPost) (hp : p ∈ (getPosts handler name id).Posts) :
    (∃ media ∈ postMedias handler name, id < getInt media.Id 0 ∧ p = postInfoOf handler media
      ∧ (media.IsVideo = true →
          p.VideoURLs = (handler.PrivateAPIManager.GetPostInfo media.GetPostCode).GetMediaUrls
            ∧ p.PhotoURLs = [])
      ∧ (media.IsVideo = false →
          p.PhotoURLs = (handler.PublicAPIManager.GetPostInfo media.GetPostCode).GetMediaUrls
            ∧ p.VideoURLs = []))
    ∧ (p.PhotoURLs = [] ∨ p.VideoURLs = []) := by
  rw [getPosts_Posts, List.mem_map] at hp
  obtain ⟨media, hm, rfl⟩ := hp
  refine ⟨⟨media, mem_takeWhile_mem id _ media hm,
    by simpa [newerThan] using List.mem_takeWhile_imp hm, rfl,
    postInfoOf_video handler media, postInfoOf_photo handler media⟩, ?_⟩
  cases hv : media.IsVideo with
  | true => exact Or.inl (postInfoOf_video handler media hv).2
  | false => exact Or.inr (postInfoOf_photo handler media hv).2

theorem getPosts_media_urls_witness :
    (postInfoOf (demoHandler mediasOutOfOrder []) (demoMedia "80" true)).VideoURLs
        = ["private/c80"]
    ∧ (postInfoOf (demoHandler mediasOutOfOrder []) (demoMedia "80" true)).PhotoURLs = []
    ∧ ((postInfoOf (demoHandler mediasOutOfOrder []) (demoMedia "80" true)).PhotoURLs = []
      ∨ (postInfoOf (demoHandler mediasOutOfOrder []) (demoMedia "80" true)).VideoURLs = []) :=
  ⟨by decide, by decide,
    (getPosts_media_urls (demoHandler mediasOutOfOrder []) "u" 25
      (postInfoOf (demoHandler mediasOutOfOrder []) (demoMedia "80" true)) (by decide)).2⟩

/-- C2: `getStories` returns when every item has an underscore in its identifier
and every item newer than the cutoff has a media URL; whenever it returns, its
stories are, in upstream order, those built from exactly the items whose derived
numeric ID exceeds the cutoff: an item with an ID at most the cutoff is left out and
the iteration goes on. -/
theorem getStories_skips_older (GetUserId : String → String) (handler : InstagramHandler)
    (name : String) (lastId : Int) :
    ((∀ item ∈ storyItems GetUserId handler name, '_' ∈ item.Id.data
        ∧ (storyNewerThan lastId item = true → item.GetMediaUrls ≠ [])) →
      ∃ r, getStories GetUserId handler name lastId = .ok r)
    ∧ ∀ r, getStories GetUserId handler name lastId = .ok r →
      r.UserName = name ∧ r.Posts = []
      ∧ List.Forall₂ IsStoryOf
          ((storyItems GetUserId handler name).filter (storyNewerThan lastId)) r.Stories
      ∧ r.Stories.map (fun st => st.OriginalID)
          = ((storyItems GetUserId handler name).filter (storyNewerThan lastId)).map
              (fun x => x.Id) := by
  constructor
  · intro hwf
    obtain ⟨res, hres⟩ := getStoriesLoop_returns lastId _ [] hwf
    exact ⟨_, by rw [getStories_eq, hres]⟩
  · intro r h
    obtain ⟨h1, h2, hall⟩ := getStories_ok GetUserId handler name lastId r h
    exact ⟨h1, h2, hall, forall₂_IsStoryOf_ids _ _ hall⟩

theorem getStories_skips_older_witness :
    getStories id (demoHandler [] demoStories) "u" 20
        = .ok { UserName := "u", Posts := [],
                Stories := [storyInfoOf (demoItem "40_7" ["b.mp4", "b.jpg"]) 40 "b.mp4"] }
    ∧ [(storyInfoOf (demoItem "40_7" ["b.mp4", "b.jpg"]) 40 "b.mp4").OriginalID] = ["40_7"]
    ∧ (storyInfoOf (demoItem "40_7" ["b.mp4", "b.jpg"]) 40 "b.mp4").ID = "40"
    ∧ ∃ r, getStories id (demoHandler [] demoStories) "u" 20 = .ok r :=
  ⟨by rfl,
    ((getStories_skips_older id (demoHandler [] demoStories) "u" 20).2
      { UserName := "u", Posts := [],
        Stories := [storyInfoOf (demoItem "40_7" ["b.mp4", "b.jpg"]) 40 "b.mp4"] }
      (by rfl)).2.2.2.trans (by decide),
    by decide,
    (getStories_skips_older id (demoHandler [] demoStories) "u" 20).1 (by decide)⟩

/-- C6: `getInt` returns the value of its argument when that is a base-10 signed
64-bit integer literal and the default in every other case (text that is no
number, the empty string, a number outside the `int64` range); so an unparseable
`last` gives cutoff 0. -/
theorem getInt_total (s : String) (d : Int) :
    (getInt s d = match int64Literal s with
      | some v => v
      | none => d)
    ∧ getInt "abc" 0 = 0
    ∧ getInt "" d = d
    ∧ getInt "9223372036854775808" d = d
    ∧ getInt "-9223372036854775809" d = d
    ∧ getInt "-9223372036854775808" d = -9223372036854775808 := by
  refine ⟨?_, by decide, ?_, ?_, ?_, ?_⟩
  · rw [getInt_eq_literal]
    cases int64Literal s <;> rfl
  · rw [getInt_eq_literal]; rfl
  · rw [getInt_eq_literal, show int64Literal "9223372036854775808" = none from by decide]; rfl
  · rw [getInt_eq_literal, show int64Literal "-9223372036854775809" = none from by decide]; rfl
  · rw [getInt_eq_literal,
      show int64Literal "-9223372036854775808" = some (-9223372036854775808) from by decide]
    rfl

/-- C7: on a composite identifier `<n>_<rest>` whose `<n>` is a decimal `int64`
literal, `getStoryIdWithoutUserId` returns `n`; when `getStories` returns and `n`
exceeds the cutoff, the item's story is in the result, with the composite identifier
unchanged in `OriginalID` and the decimal rendering of `n`, which parses back to
`n`, in `ID`. -/
theorem getStoryIdWithoutUserId_composite (pre rest : String) (n : Int)
    (hlit : int64Literal pre = some n) :
    getStoryIdWithoutUserId (pre ++ "_" ++ rest) = .ok n
    ∧ ∀ (GetUserId : String → String) (handler : InstagramHandler) (name : String)
        (lastId : Int) (r : InstaUser) (item : IGItem),
        item ∈ storyItems GetUserId handler name → item.Id = pre ++ "_" ++ rest →
        getStories GetUserId handler name lastId = .ok r → lastId < n →
        ∃ st ∈ r.Stories, IsStoryOf item st ∧ st.OriginalID = pre ++ "_" ++ rest
          ∧ st.ID = FormatInt n ∧ getInt st.ID 0 = n := by
  have hid := getStoryIdWithoutUserId_literal pre rest n hlit
  refine ⟨hid, ?_⟩
  intro GetUserId handler name lastId r item hmem hitem hok hgt
  obtain ⟨-, -, hall⟩ := getStories_ok GetUserId handler name lastId r hok
  have hnew : storyNewerThan lastId item = true := by
    simp [storyNewerThan, hitem, hid, hgt]
  obtain ⟨st, hst, hR⟩ := forall₂_exists_of_mem _ _ hall item
    (List.mem_filter.mpr ⟨hmem, hnew⟩)
  refine ⟨st, hst, hR, ?_⟩
  obtain ⟨m, u, hm, -, rfl⟩ := hR
  rw [hitem, hid] at hm
  simp only [Except.ok.injEq] at hm
  subst hm
  obtain ⟨hlo, hhi⟩ := int64Literal_range pre n hlit
  exact ⟨hitem, rfl, getInt_FormatInt n 0 hlo hhi⟩

theorem getStoryIdWithoutUserId_composite_witness :
    getStoryIdWithoutUserId "123456_789" = .ok 123456
    ∧ ∃ st ∈ [storyInfoOf (demoItem "123456_789" ["m.jpg"]) 123456 "m.jpg"],
        IsStoryOf (demoItem "123456_789" ["m.jpg"]) st ∧ st.OriginalID = "123456_789"
          ∧ st.ID = FormatInt 123456 ∧ getInt st.ID 0 = 123456 :=
  ⟨(getStoryIdWithoutUserId_composite "123456" "789" 123456 (by decide)).1,
    (getStoryIdWithoutUserId_composite "123456" "789" 123456 (by decide)).2 id
      (demoHandler [] [demoItem "123456_789" ["m.jpg"]]) "u" 1000
      { UserName := "u", Posts := [],
        Stories := [storyInfoOf (demoItem "123456_789" ["m.jpg"]) 123456 "m.jpg"] }
      (demoItem "123456_789" ["m.jpg"]) (by decide) (by decide) (by rfl) (by decide)⟩

/-- C8: neither handler lets a panic escape and each writes exactly one outcome:
status 500 and the error body of the panic, and nothing else, when the retrieval
(`getPosts`, `getStories`) panics, status 200 and the serialized response otherwise.
When no call of the client library panics the posts handler answers 200 with the
response of `getPosts`, and the stories handler answers 500 exactly on the
run-time panics of `getStories`. -/
theorem handlers_write_one_outcome (GetUserId : String → Except Panic String)
    (handler : PanickingHandler) (marshalPosts marshalStories : InstaUser → String)
    (vars : String → String) (w : ResponseWriter) :
    (∀ r, getPostsCall handler (vars "username") (getInt (vars "last") 0) = .error r →
        handlePostsRequest handler marshalPosts vars w
          = (.ok (), w ++ [.WriteHeader 500, .Write (errorBody r)]))
    ∧ (∀ resp, getPostsCall handler (vars "username") (getInt (vars "last") 0) = .ok resp →
        handlePostsRequest handler marshalPosts vars w
          = (.ok (), w ++ [.WriteHeader 200, .Write (marshalPosts resp)]))
    ∧ (∀ r, getStoriesCall GetUserId handler (vars "username") (getInt (vars "last") 0)
          = .error r →
        handleStoriesRequest GetUserId handler marshalStories vars w
          = (.ok (), w ++ [.WriteHeader 500, .Write (errorBody r)]))
    ∧ (∀ resp, getStoriesCall GetUserId handler (vars "username") (getInt (vars "last") 0)
          = .ok resp →
        handleStoriesRequest GetUserId handler marshalStories vars w
          = (.ok (), w ++ [.WriteHeader 200, .Write (marshalStories resp)]))
    ∧ (∀ h : InstagramHandler,
        handlePostsRequest h.toPanicking marshalPosts vars w
          = (.ok (), w ++ [.WriteHeader 200,
              .Write (marshalPosts (getPosts h (vars "username") (getInt (vars "last") 0)))]))
    ∧ (∀ (G : String → String) (h : InstagramHandler) (r : Fault),
        getStories G h (vars "username") (getInt (vars "last") 0) = .error r →
        handleStoriesRequest (fun name => .ok (G name)) h.toPanicking marshalStories vars w
          = (.ok (), w ++ [.WriteHeader 500, .Write (errorBody (.runtime r))]))
    ∧ (∀ (G : String → String) (h : InstagramHandler) (resp : InstaUser),
        getStories G h (vars "username") (getInt (vars "last") 0) = .ok resp →
        handleStoriesRequest (fun name => .ok (G name)) h.toPanicking marshalStories vars w
          = (.ok (), w ++ [.WriteHeader 200, .Write (marshalStories resp)])) := by
  refine ⟨?_, ?_, ?_, ?_, ?_, ?_, ?_⟩
  · intro r hr
    simp only [handlePostsRequest, deferRecover, hr, writeFault]
  · intro resp hr
    simp only [handlePostsRequest, deferRecover, hr]
  · intro r hr
    simp only [handleStoriesRequest, deferRecover, hr, writeFault]
  · intro resp hr
    simp only [handleStoriesRequest, deferRecover, hr]
  · intro h
    simp only [handlePostsRequest, deferRecover, getPostsCall_toPanicking]
  · intro G h r hr
    simp only [handleStoriesRequest, deferRecover, getStoriesCall_toPanicking, hr, writeFault]
  · intro G h resp hr
    simp only [handleStoriesRequest, deferRecover, getStoriesCall_toPanicking, hr]

theorem handlers_write_one_outcome_witness :
    handlePostsRequest (demoPanickingHandler "private.GetPostInfo") demoMarshal
        (demoVars "25") []
      = (.ok (), [.WriteHeader 500, .Write "\x7b\"Error\": \"panic in private.GetPostInfo\"\x7d"])
    ∧ handlePostsRequest (demoPanickingHandler "private.GetPostInfo") demoMarshal
        (demoVars "40") []
      = (.ok (), [.WriteHeader 200, .Write "u:50:"])
    ∧ handlePostsRequest (demoPanickingHandler "public.GetPostInfo") demoMarshal
        (demoVars "40") []
      = (.ok (), [.WriteHeader 500, .Write "\x7b\"Error\": \"panic in public.GetPostInfo\"\x7d"])
    ∧ handlePostsRequest (demoPanickingHandler "public.GetUserInfo") demoMarshal
        (demoVars "40") []
      = (.ok (), [.WriteHeader 500, .Write "\x7b\"Error\": \"panic in public.GetUserInfo\"\x7d"])
    ∧ handlePostsRequest (demoPanickingHandler "public.GetAllPostMedia") demoMarshal
        (demoVars "40") []
      = (.ok (), [.WriteHeader 500,
          .Write "\x7b\"Error\": \"panic in public.GetAllPostMedia\"\x7d"])
    ∧ handleStoriesRequest (demoGetUserId "GetUserId") (demoPanickingHandler "GetUserId")
        demoMarshal (demoVars "20") []
      = (.ok (), [.WriteHeader 500, .Write "\x7b\"Error\": \"panic in GetUserId\"\x7d"])
    ∧ handleStoriesRequest (demoGetUserId "private.GetUserStory")
        (demoPanickingHandler "private.GetUserStory") demoMarshal (demoVars "20") []
      = (.ok (), [.WriteHeader 500, .Write "\x7b\"Error\": \"panic in private.GetUserStory\"\x7d"])
    ∧ handleStoriesRequest (demoGetUserId "none") (demoPanickingHandler "none")
        demoMarshal (demoVars "20") []
      = (.ok (), [.WriteHeader 200, .Write "u::40"])
    ∧ handleStoriesRequest (fun name => .ok name)
        (demoHandler [] [demoItem "40" ["m.jpg"]]).toPanicking demoMarshal (demoVars "abc") []
      = (.ok (), [.WriteHeader 500,
          .Write "\x7b\"Error\": \"runtime error: slice bounds out of range [:-1]\"\x7d"])
    ∧ handleStoriesRequest (fun name => .ok name) (demoHandler [] demoStories).toPanicking
        demoMarshal (demoVars "20") []
      = (.ok (), [.WriteHeader 200, .Write "u::40"])
    ∧ handlePostsRequest (demoHandler mediasOutOfOrder []).toPanicking demoMarshal
        (demoVars "25") []
      = (.ok (), [.WriteHeader 200, .Write "u:50,30,80:"]) :=
  ⟨((handlers_write_one_outcome (demoGetUserId "private.GetPostInfo")
      (demoPanickingHandler "private.GetPostInfo") demoMarshal demoMarshal (demoVars "25") []).1
        (.library "panic in private.GetPostInfo") (by rfl)).trans (by rfl),
    ((handlers_write_one_outcome (demoGetUserId "private.GetPostInfo")
      (demoPanickingHandler "private.GetPostInfo") demoMarshal demoMarshal
      (demoVars "40") []).2.1
        { UserName := "u", Posts := [postInfoOf (demoHandler mediasOutOfOrder [])
            (demoMedia "50" false)], Stories := [] }
        (by rfl)).trans (by rfl),
    ((handlers_write_one_outcome (demoGetUserId "public.GetPostInfo")
      (demoPanickingHandler "public.GetPostInfo") demoMarshal demoMarshal (demoVars "40") []).1
        (.library "panic in public.GetPostInfo") (by rfl)).trans (by rfl),
    ((handlers_write_one_outcome (demoGetUserId "public.GetUserInfo")
      (demoPanickingHandler "public.GetUserInfo") demoMarshal demoMarshal (demoVars "40") []).1
        (.library "panic in public.GetUserInfo") (by rfl)).trans (by rfl),
    ((handlers_write_one_outcome (demoGetUserId "public.GetAllPostMedia")
      (demoPanickingHandler "public.GetAllPostMedia") demoMarshal demoMarshal
      (demoVars "40") []).1
        (.library "panic in public.GetAllPostMedia") (by rfl)).trans (by rfl),
    ((handlers_write_one_outcome (demoGetUserId "GetUserId")
      (demoPanickingHandler "GetUserId") demoMarshal demoMarshal (demoVars "20") []).2.2.1
        (.library "panic in GetUserId") (by rfl)).trans (by rfl),
    ((handlers_write_one_outcome (demoGetUserId "private.GetUserStory")
      (demoPanickingHandler "private.GetUserStory") demoMarshal demoMarshal
      (demoVars "20") []).2.2.1
        (.library "panic in private.GetUserStory") (by rfl)).trans (by rfl),
    ((handlers_write_one_outcome (demoGetUserId "none")
      (demoPanickingHandler "none") demoMarshal demoMarshal (demoVars "20") []).2.2.2.1
        { UserName := "u", Posts := [],
          Stories := [storyInfoOf (demoItem "40_7" ["b.mp4", "b.jpg"]) 40 "b.mp4"] }
        (by rfl)).trans (by rfl),
    ((handlers_write_one_outcome (demoGetUserId "none") (demoPanickingHandler "none")
      demoMarshal demoMarshal (demoVars "abc") []).2.2.2.2.2.1 id
        (demoHandler [] [demoItem "40" ["m.jpg"]])
        (.sliceBoundsOutOfRange (-1)) (by rfl)).trans (by rfl),
    ((handlers_write_one_outcome (demoGetUserId "none") (demoPanickingHandler "none")
      demoMarshal demoMarshal (demoVars "20") []).2.2.2.2.2.2 id (demoHandler [] demoStories)
        { UserName := "u", Posts := [],
          Stories := [storyInfoOf (demoItem "40_7" ["b.mp4", "b.jpg"]) 40 "b.mp4"] }
        (by rfl)).trans (by rfl),
    ((handlers_write_one_outcome (demoGetUserId "none") (demoPanickingHandler "none")
      demoMarshal demoMarshal (demoVars "25") []).2.2.2.2.1
        (demoHandler mediasOutOfOrder [])).trans (by rfl)⟩

/-- C9, as the code has it: an item whose derived numeric ID exceeds the cutoff and
that has no media URL makes `getStories` fault and return no response; the fault is
the out-of-range access on index 0 when the items before it run through (an earlier
item may fault first, in its own way).  An item whose derived ID is at most the
cutoff is skipped whatever its media URLs: the outcome is that of the collection
without it. -/
theorem getStories_no_media_url (GetUserId : String → String) (handler : InstagramHandler)
    (name : String) (lastId : Int) (pre post : List IGItem) (item : IGItem) (n : Int)
    (hitems : storyItems GetUserId handler name = pre ++ item :: post)
    (hid : getStoryIdWithoutUserId item.Id = .ok n)
    (hmedia : item.GetMediaUrls = []) :
    (lastId < n →
      (∃ r, getStories GetUserId handler name lastId = .error r)
      ∧ ((∃ res, getStoriesLoop lastId pre [] = .ok res) →
          getStories GetUserId handler name lastId = .error (.indexOutOfRange 0 0)))
    ∧ (n ≤ lastId → ∀ handler2 : InstagramHandler,
        storyItems GetUserId handler2 name = pre ++ post →
        getStories GetUserId handler name lastId = getStories GetUserId handler2 name lastId) := by
  constructor
  · intro hgt
    have hstep : ∀ acc, getStoriesLoop lastId (item :: post) acc
        = .error (.indexOutOfRange 0 0) := by
      intro acc
      rw [getStoriesLoop, hid]
      simp only
      rw [if_neg (by omega), hmedia]
      rfl
    obtain ⟨⟨r1, h1⟩, h2⟩ := getStoriesLoop_fault_at lastId pre post item [] _ hstep
    constructor
    · exact ⟨r1, by rw [getStories_eq, hitems, h1]⟩
    · rintro ⟨res, hres⟩
      rw [getStories_eq, hitems, h2 res hres]
  · intro hle handler2 hitems2
    rw [getStories_eq, getStories_eq, hitems, hitems2,
      getStoriesLoop_skip lastId pre post item [] n hid hle]

theorem getStories_no_media_url_witness :
    getStories id (demoHandler [] [demoItem "10_7" ["a.jpg"], demoItem "40_7" []]) "u" 20
        = .error (.indexOutOfRange 0 0)
    ∧ getStories id (demoHandler [] [demoItem "10_7" ["a.jpg"], demoItem "40_7" []]) "u" 40
        = getStories id (demoHandler [] [demoItem "10_7" ["a.jpg"]]) "u" 40 :=
  ⟨((getStories_no_media_url id
      (demoHandler [] [demoItem "10_7" ["a.jpg"], demoItem "40_7" []]) "u" 20
      [demoItem "10_7" ["a.jpg"]] [] (demoItem "40_7" []) 40 (by rfl) (by rfl) (by rfl)).1
        (by decide)).2 ⟨[], by rfl⟩,
    (getStories_no_media_url id
      (demoHandler [] [demoItem "10_7" ["a.jpg"], demoItem "40_7" []]) "u" 40
      [demoItem "10_7" ["a.jpg"]] [] (demoItem "40_7" []) 40 (by rfl) (by rfl) (by rfl)).2
        (by decide) (demoHandler [] [demoItem "10_7" ["a.jpg"]]) (by rfl)⟩

/-- C9 fails as it is written: the second item has derived ID 40, above the cutoff
20, and no media URL, yet the fault of `getStories` is the slice-bounds fault of
the first item, whose identifier has no underscore, not an access to index 0. -/
theorem getStories_no_media_url_other_fault :
    getStoryIdWithoutUserId (demoItem "40_7" []).Id = .ok 40
    ∧ (demoItem "40_7" []).GetMediaUrls = []
    ∧ demoItem "40_7" [] ∈ storyItems id
        (demoHandler [] [demoItem "10" ["a.jpg"], demoItem "40_7" []]) "u"
    ∧ getStories id (demoHandler [] [demoItem "10" ["a.jpg"], demoItem "40_7" []]) "u" 20
        = .error (.sliceBoundsOutOfRange (-1))
    ∧ getStories id (demoHandler [] [demoItem "10" ["a.jpg"], demoItem "40_7" []]) "u" 20
        ≠ .error (.indexOutOfRange 0 0) := by
  refine ⟨by rfl, by rfl, by decide, by rfl, ?_⟩
  rw [show getStories id (demoHandler [] [demoItem "10" ["a.jpg"], demoItem "40_7" []]) "u" 20
    = .error (.sliceBoundsOutOfRange (-1)) from by rfl]
  intro h
  injection h with h
  exact Fault.noConfusion h

/-- C10: on an identifier without underscore the index of the separator is `-1`
and `getStoryIdWithoutUserId` faults on the slice; so `getStories` faults on a
collection containing such an item, whatever the cutoff, and with that slice fault
when the items before it run through.  On an identifier with an underscore
`getStoryIdWithoutUserId` returns `getInt` of the text before the first underscore,
which is 0 when that text is no decimal integer. -/
theorem getStoryIdWithoutUserId_underscore (storyId : String) :
    ('_' ∉ storyId.data →
      IndexByte storyId '_' = -1
      ∧ getStoryIdWithoutUserId storyId = .error (.sliceBoundsOutOfRange (-1))
      ∧ ∀ (GetUserId : String → String) (handler : InstagramHandler) (name : String)
          (lastId : Int) (pre post : List IGItem) (item : IGItem),
          storyItems GetUserId handler name = pre ++ item :: post → item.Id = storyId →
          (∃ r, getStories GetUserId handler name lastId = .error r)
          ∧ ((∃ res, getStoriesLoop lastId pre [] = .ok res) →
              getStories GetUserId handler name lastId
                = .error (.sliceBoundsOutOfRange (-1))))
    ∧ ('_' ∈ storyId.data →
      getStoryIdWithoutUserId storyId = .ok (getInt (beforeUnderscore storyId) 0)
      ∧ (int64Literal (beforeUnderscore storyId) = none →
          getStoryIdWithoutUserId storyId = .ok 0)) := by
  constructor
  · intro hno
    have hfault := getStoryIdWithoutUserId_of_not_mem storyId hno
    refine ⟨IndexByteFrom_of_not_mem _ _ _ hno, hfault, ?_⟩
    intro GetUserId handler name lastId pre post item hitems hitem
    have hstep : ∀ acc, getStoriesLoop lastId (item :: post) acc
        = .error (.sliceBoundsOutOfRange (-1)) := by
      intro acc
      rw [getStoriesLoop, hitem, hfault]
    obtain ⟨⟨r1, h1⟩, h2⟩ := getStoriesLoop_fault_at lastId pre post item [] _ hstep
    constructor
    · exact ⟨r1, by rw [getStories_eq, hitems, h1]⟩
    · rintro ⟨res, hres⟩
      rw [getStories_eq, hitems, h2 res hres]
  · intro hmem
    have hok := getStoryIdWithoutUserId_of_mem storyId hmem
    refine ⟨hok, ?_⟩
    intro hnone
    rw [hok, getInt_eq_literal, hnone]
    rfl

theorem getStoryIdWithoutUserId_underscore_witness :
    getStoryIdWithoutUserId "40" = .error (.sliceBoundsOutOfRange (-1))
    ∧ getStories id (demoHandler [] [demoItem "10_7" ["a.jpg"], demoItem "40" ["m.jpg"]]) "u" 99
        = .error (.sliceBoundsOutOfRange (-1))
    ∧ getStoryIdWithoutUserId "abc_7" = .ok 0 :=
  ⟨((getStoryIdWithoutUserId_underscore "40").1 (by decide)).2.1,
    (((getStoryIdWithoutUserId_underscore "40").1 (by decide)).2.2 id
      (demoHandler [] [demoItem "10_7" ["a.jpg"], demoItem "40" ["m.jpg"]]) "u" 99
      [demoItem "10_7" ["a.jpg"]] [] (demoItem "40" ["m.jpg"]) (by rfl) (by rfl)).2
        ⟨[], by rfl⟩,
    ((getStoryIdWithoutUserId_underscore "abc_7").2 (by decide)).2 (by decide)⟩


end Instaprovider
